import Mathlib

/-!
# Shallow embedding of the order-queue backend (`src/app.py`)

The program is a Flask service over SQLite with three operations:
`generate_token` (POST /generate_token), `get_queue` (GET /queue) and
`clear_orders` (POST /clear_orders).  We embed the persisted state (the
`orders` and `tokens` tables) as lists of rows, JSON request bodies as a
`Json` value type, and each handler as a pure function from state and
request to response and new state.

Python/SQLite modelling conventions:
* numbers (both Python `int` and `float`, and SQLite `INTEGER`/`REAL`)
  are embedded as `ℚ`, so arithmetic is exact;
* booleans and arrays are omitted from `Json`: no claim exercises them;
* dynamic-typing failures (`KeyError`, `TypeError`, `AttributeError`) and
  SQLite binding failures are embedded as `Except String`; the `try/except`
  wrapper in each handler turns such an error into a 500 response, and the
  `with conn` context manager rolls the transaction back, so an erroring
  handler leaves the state unchanged;
* `datetime.now()` is modelled as request inputs (`current_time`,
  `formatted_time`), since the handler calls it twice independently.
-/

namespace OrderQueue

/-- JSON values as produced by `request.get_json()`.  `Json.null` also plays
the role of Python `None` (the result of `get_json` on an empty body).
Booleans and arrays are omitted: no behaviour relevant to the claims
involves them. -/
inductive Json where
  | null : Json
  | num (q : ℚ) : Json
  | str (s : String) : Json
  | obj (kvs : List (String × Json)) : Json

/-- One row of the `orders` table
(`token_number, customer_id, item_name, quantity, price, amount, timestamp`);
the `id INTEGER PRIMARY KEY AUTOINCREMENT` column is represented by the
position in the list (rows are appended in insertion order). -/
structure OrderRow where
  token_number : Int
  customer_id : Json
  item_name : String
  quantity : ℚ
  price : ℚ
  amount : ℚ
  timestamp : String

/-- One row of the `tokens` table
(`token_number PRIMARY KEY, customer_id, timestamp, total_amount`). -/
structure TokenRow where
  token_number : Int
  customer_id : Json
  timestamp : String
  total_amount : ℚ

/-- The persisted state: both tables, rows in insertion order. -/
structure DB where
  orders : List OrderRow
  tokens : List TokenRow

/-- The sentinel row inserted by `init_db` and `clear_orders`:
`(999, 'SYSTEM', '2000-01-01T00:00:00', 0)`. -/
def sentinel : TokenRow :=
  ⟨999, Json.str "SYSTEM", "2000-01-01T00:00:00", 0⟩

/-- A fresh database, before `init_db` has run (both tables empty). -/
def DB.empty : DB := ⟨[], []⟩

/-- `INSERT OR IGNORE INTO tokens ... VALUES (999, 'SYSTEM', ...)`:
inserts the sentinel unless a row keyed `token_number = 999` exists. -/
def insertOrIgnoreSentinel (ts : List TokenRow) : List TokenRow :=
  if ts.any (fun t => t.token_number == 999) then ts else ts ++ [sentinel]

/-- `init_db`: creates the tables if absent and inserts the sentinel if
absent. -/
def init_db (db : DB) : DB :=
  ⟨db.orders, insertOrIgnoreSentinel db.tokens⟩

/-- Python truthiness (`not data`): `None`, `0`, `""` and `{}` are falsy. -/
def pythonTruthy : Json → Bool
  | .null => false
  | .num q => q != 0
  | .str s => s != ""
  | .obj kvs => !kvs.isEmpty

/-- Python `key in data`: key lookup on a dict, substring test on a string,
`TypeError` otherwise. -/
def pyContains (key : String) : Json → Except String Bool
  | .obj kvs => .ok (kvs.any (fun kv => kv.1 == key))
  | .str s => .ok (decide (1 < (s.splitOn key).length))
  | _ => .error "argument of type is not iterable"

/-- Python `data[key]`: dict lookup (`KeyError` when absent), `TypeError` on
non-dict values. -/
def pyGetItem : Json → String → Except String Json
  | .obj kvs, key =>
    match kvs.find? (fun kv => kv.1 == key) with
    | some kv => .ok kv.2
    | none => .error key
  | _, _ => .error "value is not subscriptable"

/-- Python `v > 0`: numeric comparison; `TypeError` for non-numbers. -/
def pyGtZero : Json → Except String Bool
  | .num q => .ok (decide (0 < q))
  | _ => .error "unsupported comparison with int"

/-- sqlite3 parameter binding: dict values are an unsupported parameter
type (`ProgrammingError`), `None` violates the `NOT NULL` constraints
(`IntegrityError`); numbers and strings bind fine. -/
def bindValue : Json → Except String Unit
  | .obj _ => .error "unsupported parameter type"
  | .null => .error "NOT NULL constraint failed"
  | _ => .ok ()

/-- `SELECT MAX(token_number) FROM tokens`: `none` (SQL `NULL`) on an empty
table, otherwise the maximum. -/
def maxTok : List TokenRow → Option Int
  | [] => none
  | t :: ts =>
    match maxTok ts with
    | none => some t.token_number
    | some m => some (max t.token_number m)

/-- Python `(max_token or 999)`: `None` and `0` are falsy and give 999. -/
def pyOr999 : Option Int → Int
  | none => 999
  | some m => if m == 0 then 999 else m

/-- The dict comprehension
`{k: v for k, v in data['items'].items() if v['quantity'] > 0}`:
keeps the entries with positive quantity, propagating the first
`KeyError`/`TypeError` raised while evaluating the filter. -/
def filterValidItems : List (String × Json) → Except String (List (String × Json))
  | [] => .ok []
  | kv :: rest =>
    match pyGetItem kv.2 "quantity" with
    | .error e => .error e
    | .ok qJ =>
      match pyGtZero qJ with
      | .error e => .error e
      | .ok b =>
        match filterValidItems rest with
        | .error e => .error e
        | .ok tail => .ok (if b then kv :: tail else tail)

/-- One line of the `items` list in a successful response. -/
structure ReceiptItem where
  item_name : String
  quantity : ℚ
  price : ℚ
  amount : ℚ

/-- The JSON payload of a successful `generate_token` response. -/
structure Receipt where
  token_number : Int
  timestamp : String
  total : ℚ
  items : List ReceiptItem
  customer_id : Json
  formatted_time : String

/-- Outcome of `generate_token`: HTTP 200 with a receipt, HTTP 400 with an
error message, or HTTP 500 with the exception message. -/
inductive GenResp where
  | ok (r : Receipt) : GenResp
  | badRequest (error : String) : GenResp
  | serverError (error : String) : GenResp

/-- A `generate_token` request: the parsed JSON body plus the two
`datetime.now()` readings taken by the handler. -/
structure GenReq where
  data : Json
  current_time : String
  formatted_time : String

/-- The `for item_name, details in valid_items.items()` loop: computes
`amount = quantity * price` per entry, inserts one `orders` row per entry,
accumulates the response `items` list and `total_amount`.  An exception at
any point (missing `price`, non-numeric operands, unbindable
`customer_id`) aborts the whole transaction. -/
def processItems (tok : Int) (cust : Json) (ts : String) :
    List (String × Json) → Except String (List OrderRow × List ReceiptItem × ℚ)
  | [] => .ok ([], [], 0)
  | kv :: rest =>
    match pyGetItem kv.2 "quantity" with
    | .error e => .error e
    | .ok qJ =>
      match pyGetItem kv.2 "price" with
      | .error e => .error e
      | .ok pJ =>
        match qJ, pJ with
        | .num q, .num p =>
          match bindValue cust with
          | .error e => .error e
          | .ok _ =>
            match processItems tok cust ts rest with
            | .error e => .error e
            | .ok (rows, entries, total) =>
              .ok (⟨tok, cust, kv.1, q, p, q * p, ts⟩ :: rows,
                   ⟨kv.1, q, p, q * p⟩ :: entries,
                   q * p + total)
        | _, _ => .error "unsupported operand types for *"

/-- Body of the `try:` block of `generate_token`: validation, filtering,
token-number computation, and the insert transaction.  A `.error` result
is an uncaught Python exception (surfaced as a 500 with the transaction
rolled back); `.ok` carries the response and the committed state. -/
def genBody (db : DB) (req : GenReq) : Except String (GenResp × DB) :=
  if pythonTruthy req.data = false then
    .ok (.badRequest "Invalid order data", db)
  else
    match pyContains "items" req.data with
    | .error e => .error e
    | .ok false => .ok (.badRequest "Invalid order data", db)
    | .ok true =>
      match pyContains "customer_id" req.data with
      | .error e => .error e
      | .ok false => .ok (.badRequest "Invalid order data", db)
      | .ok true =>
        match pyGetItem req.data "items" with
        | .error e => .error e
        | .ok (.obj ikvs) =>
          match filterValidItems ikvs with
          | .error e => .error e
          | .ok valid =>
            if valid.isEmpty then
              .ok (.badRequest "No items in order", db)
            else
              match pyGetItem req.data "customer_id" with
              | .error e => .error e
              | .ok cust =>
                let tok := pyOr999 (maxTok db.tokens) + 1
                match processItems tok cust req.current_time valid with
                | .error e => .error e
                | .ok (rows, entries, total) =>
                  .ok (.ok ⟨tok, req.current_time, total, entries, cust,
                            req.formatted_time⟩,
                       ⟨db.orders ++ rows,
                        db.tokens ++ [⟨tok, cust, req.current_time, total⟩]⟩)
        | .ok _ => .error "object has no attribute items"

/-- The `/generate_token` handler: the `try/except` wrapper turns an
uncaught exception into a 500 response, and the rolled-back transaction
leaves the state unchanged. -/
def generate_token (db : DB) (req : GenReq) : GenResp × DB :=
  match genBody db req with
  | .ok r => r
  | .error e => (.serverError e, db)

/-- Response of `/clear_orders`: `{"status": ..., "message": ...}`. -/
structure ClearResp where
  status : String
  message : String

/-- The `/clear_orders` handler: `DELETE FROM orders`, `DELETE FROM tokens`,
then `INSERT OR IGNORE` of the sentinel, in one transaction. -/
def clear_orders (_db : DB) : ClearResp × DB :=
  (⟨"success", "All orders cleared"⟩, ⟨[], insertOrIgnoreSentinel []⟩)

/-- One item of a queue entry (`item_name, quantity, price`). -/
structure QueueItem where
  item_name : String
  quantity : ℚ
  price : ℚ

/-- One entry of the `/queue` response. -/
structure QueueEntry where
  token_number : Int
  customer_id : Json
  timestamp : String
  total : ℚ
  items : List QueueItem

/-- `ORDER BY t.timestamp DESC`: descending (most-recent-first) order on the
ISO-8601 timestamp strings. -/
def tsGe (a b : TokenRow) : Prop := b.timestamp ≤ a.timestamp

instance : DecidableRel tsGe := fun a b =>
  inferInstanceAs (Decidable (b.timestamp ≤ a.timestamp))

instance : IsTotal TokenRow tsGe := ⟨fun a b => le_total b.timestamp a.timestamp⟩

instance : IsTrans TokenRow tsGe := ⟨fun _ _ _ hab hbc => le_trans hbc hab⟩

/-- The token rows in the order the `SELECT ... ORDER BY t.timestamp DESC`
returns them. -/
def sortTokensDesc (ts : List TokenRow) : List TokenRow :=
  List.insertionSort tsGe ts

/-- The rows returned by
`SELECT ... FROM tokens t JOIN orders o ON t.token_number = o.token_number
ORDER BY t.timestamp DESC`: for each token (in descending timestamp order)
its matching order lines in insertion order. -/
def joinedRows (db : DB) : List (TokenRow × OrderRow) :=
  (sortTokensDesc db.tokens).flatMap fun t =>
    (db.orders.filter fun o => o.token_number == t.token_number).map fun o => (t, o)

/-- Projection of an `orders` row to a queue item. -/
def mkQueueItem (o : OrderRow) : QueueItem :=
  ⟨o.item_name, o.quantity, o.price⟩

/-- One step of the grouping loop of `get_queue`: if the row's token number
is already a key of `unique_orders`, append the item to that entry,
otherwise add a new entry for it (Python dicts preserve key insertion
order, so the accumulator is a list). -/
def addRow (acc : List QueueEntry) (row : TokenRow × OrderRow) : List QueueEntry :=
  if acc.any (fun e => e.token_number == row.1.token_number) then
    acc.map fun e =>
      if e.token_number == row.1.token_number then
        { e with items := e.items ++ [mkQueueItem row.2] }
      else e
  else
    acc ++ [⟨row.1.token_number, row.1.customer_id, row.1.timestamp,
            row.1.total_amount, [mkQueueItem row.2]⟩]

/-- The `/queue` handler: runs the join query and groups the rows by token
number. -/
def get_queue (db : DB) : List QueueEntry :=
  (joinedRows db).foldl addRow []

/-- Spec-side description of one queue entry, following the spec's words
(`ListQueue` groups the joined rows by `token_number` into one queue entry
per token, with the row order within each group as the item order and
`total` the token's persisted `total_amount`); a token with no order lines
produces no entry. -/
def specEntry (orders : List OrderRow) (t : TokenRow) : Option QueueEntry :=
  match orders.filter fun o => o.token_number == t.token_number with
  | [] => none
  | ls => some ⟨t.token_number, t.customer_id, t.timestamp, t.total_amount,
               ls.map mkQueueItem⟩

/-- Spec-side description of the whole `/queue` response: one entry per
token that has order lines, in descending token-timestamp order. -/
def queueSpec (db : DB) : List QueueEntry :=
  (sortTokensDesc db.tokens).filterMap (specEntry db.orders)

/-- The states reachable through the service: a freshly initialized
database, followed by any interleaving of `init_db` (re-run on startup),
`generate_token` and `clear_orders` (`get_queue` does not change state). -/
inductive Reachable : DB → Prop where
  | init : Reachable (init_db DB.empty)
  | initAgain {db : DB} : Reachable db → Reachable (init_db db)
  | place {db : DB} : Reachable db → ∀ req : GenReq, Reachable (generate_token db req).2
  | clear {db : DB} : Reachable db → Reachable (clear_orders db).2

/-- Run a sequence of `PlaceOrder` calls, returning the final state and the
token numbers assigned by the successful calls, in order. -/
def runPlace : DB → List GenReq → DB × List Int
  | db, [] => (db, [])
  | db, req :: rest =>
    match generate_token db req with
    | (.ok rec, db') =>
      let (dbf, toks) := runPlace db' rest
      (dbf, rec.token_number :: toks)
    | (_, db') => runPlace db' rest

/-- A lifetime operation: a `PlaceOrder` call or a `ClearQueue` call. -/
inductive Op where
  | place (req : GenReq) : Op
  | clear : Op

/-- Run a lifetime of operations, returning the final state and every token
number assigned to an order by a successful `PlaceOrder`, in order. -/
def runOps : DB → List Op → DB × List Int
  | db, [] => (db, [])
  | db, .place req :: rest =>
    match generate_token db req with
    | (.ok rec, db') =>
      let (dbf, toks) := runOps db' rest
      (dbf, rec.token_number :: toks)
    | (_, db') => runOps db' rest
  | db, .clear :: rest => runOps (clear_orders db).2 rest

/-- `True` when every item entry of the request whose `price` field is
present and numeric carries a non-negative price.  (Requests whose price
is absent or non-numeric never commit anything, so they are unconstrained.) -/
def reqPricesNonNeg (req : GenReq) : Bool :=
  match pyGetItem req.data "items" with
  | .ok (.obj ikvs) =>
    ikvs.all fun kv =>
      match pyGetItem kv.2 "price" with
      | .ok (.num p) => decide (0 ≤ p)
      | _ => true
  | _ => true

/-- The states reachable when every `PlaceOrder` request supplies only
non-negative prices. -/
inductive ReachableNN : DB → Prop where
  | init : ReachableNN (init_db DB.empty)
  | initAgain {db : DB} : ReachableNN db → ReachableNN (init_db db)
  | place {db : DB} : ReachableNN db → ∀ req : GenReq,
      reqPricesNonNeg req = true → ReachableNN (generate_token db req).2
  | clear {db : DB} : ReachableNN db → ReachableNN (clear_orders db).2

/-! ## Concrete requests and states used by witnesses and counterexamples -/

/-- The freshly initialized database: no orders, only the sentinel token. -/
def dbInit : DB := init_db DB.empty

/-- The spec's concrete scenario: customer `c1` orders 2 tea at 10 and
0 coffee at 20. -/
def reqTea : GenReq :=
  ⟨Json.obj [("customer_id", Json.str "c1"),
             ("items", Json.obj
               [("tea", Json.obj [("quantity", Json.num 2), ("price", Json.num 10)]),
                ("coffee", Json.obj [("quantity", Json.num 0), ("price", Json.num 20)])])],
   "2024-01-01T10:00:00", "01 Jan 2024, 10:00 AM"⟩

/-- A second order: customer `c2` orders 3 idli at 5. -/
def reqIdli : GenReq :=
  ⟨Json.obj [("customer_id", Json.str "c2"),
             ("items", Json.obj
               [("idli", Json.obj [("quantity", Json.num 3), ("price", Json.num 5)])])],
   "2024-01-01T11:00:00", "01 Jan 2024, 11:00 AM"⟩

/-- A request whose `customer_id` is present but the empty string. -/
def reqEmptyCust : GenReq :=
  ⟨Json.obj [("customer_id", Json.str ""),
             ("items", Json.obj
               [("tea", Json.obj [("quantity", Json.num 1), ("price", Json.num 2)])])],
   "t0", "ft0"⟩

/-- A request whose only item entry lacks the `price` field and has
quantity 0 (so it is filtered out before the price is ever read). -/
def reqMissingPrice : GenReq :=
  ⟨Json.obj [("customer_id", Json.str "c"),
             ("items", Json.obj [("a", Json.obj [("quantity", Json.num 0)])])],
   "t0", "ft0"⟩

/-- A request with a negative unit price. -/
def reqNegPrice : GenReq :=
  ⟨Json.obj [("customer_id", Json.str "c1"),
             ("items", Json.obj
               [("tea", Json.obj [("quantity", Json.num 1), ("price", Json.num (-5))])])],
   "t0", "ft0"⟩

/-- The state after placing `reqNegPrice` on the fresh database. -/
def dbNeg : DB := (generate_token dbInit reqNegPrice).2

/-- The state after placing `reqTea` then `reqIdli` on the fresh database. -/
def dbTwo : DB := (generate_token (generate_token dbInit reqTea).2 reqIdli).2

/-! ## Basic lemmas about `maxTok` and `pyOr999` -/

lemma maxTok_nil : maxTok [] = none := rfl

lemma maxTok_append (ts : List TokenRow) (u : TokenRow) :
    maxTok (ts ++ [u]) =
      some ((maxTok ts).elim u.token_number fun m => max m u.token_number) := by
  induction ts with
  | nil => rfl
  | cons t ts ih =>
    cases hm : maxTok ts with
    | none => simp [List.cons_append, maxTok, ih, hm]
    | some m => simp [List.cons_append, maxTok, ih, hm, max_assoc]

lemma le_maxTok_of_mem {ts : List TokenRow} {t : TokenRow} (h : t ∈ ts) :
    ∃ m, maxTok ts = some m ∧ t.token_number ≤ m := by
  induction ts with
  | nil => cases h
  | cons u us ih =>
    rcases List.mem_cons.mp h with h | h
    · subst h
      cases hm : maxTok us with
      | none => exact ⟨t.token_number, by simp [maxTok, hm], le_refl _⟩
      | some m => exact ⟨max t.token_number m, by simp [maxTok, hm], le_max_left _ _⟩
    · obtain ⟨m, hm, hle⟩ := ih h
      exact ⟨max u.token_number m, by simp [maxTok, hm], le_trans hle (le_max_right _ _)⟩

lemma maxTok_mem {ts : List TokenRow} {m : Int} (h : maxTok ts = some m) :
    ∃ t ∈ ts, t.token_number = m := by
  induction ts generalizing m with
  | nil => cases h
  | cons u us ih =>
    cases hm : maxTok us with
    | none =>
      simp [maxTok, hm] at h
      exact ⟨u, List.mem_cons_self u us, h⟩
    | some m' =>
      simp [maxTok, hm] at h
      rcases max_choice u.token_number m' with hc | hc
      · exact ⟨u, List.mem_cons_self u us, by rw [← h, hc]⟩
      · obtain ⟨t, ht, hteq⟩ := ih hm
        exact ⟨t, List.mem_cons_of_mem _ ht, by rw [hteq, ← hc, h]⟩

lemma pyOr999_of_ge {m : Int} (h : (999:Int) ≤ m) : pyOr999 (some m) = m := by
  have : (m == 0) = false := by
    simp only [beq_eq_false_iff_ne, ne_eq]
    omega
  simp [pyOr999, this]

/-! ## The reachability invariant -/

/-- Structural invariant maintained by every operation: the `tokens` table is
nonempty (the sentinel anchors it), every token number is at least 999 and
they are pairwise distinct (`token_number` is the primary key), and every
`orders` row carries a token number of at least 1000 and a positive
quantity. -/
structure Inv (db : DB) : Prop where
  tokens_ne : db.tokens ≠ []
  tokens_ge : ∀ t ∈ db.tokens, (999:Int) ≤ t.token_number
  tokens_nodup : (db.tokens.map TokenRow.token_number).Nodup
  orders_ge : ∀ o ∈ db.orders, (1000:Int) ≤ o.token_number
  orders_qty_pos : ∀ o ∈ db.orders, (0:ℚ) < o.quantity

lemma Inv.maxTok_some {db : DB} (h : Inv db) :
    ∃ m, maxTok db.tokens = some m ∧ (999:Int) ≤ m := by
  obtain ⟨t, ht⟩ := List.exists_mem_of_ne_nil db.tokens h.tokens_ne
  obtain ⟨m, hm, _⟩ := le_maxTok_of_mem ht
  obtain ⟨u, hu, hueq⟩ := maxTok_mem hm
  exact ⟨m, hm, hueq ▸ h.tokens_ge u hu⟩

/-! ## Lemmas about item filtering and the insert loop -/

lemma pyGtZero_true {j : Json} (h : pyGtZero j = .ok true) :
    ∃ q : ℚ, j = .num q ∧ 0 < q := by
  cases j <;> simp [pyGtZero] at h ⊢
  assumption

lemma filterValidItems_ok {kvs valid : List (String × Json)}
    (h : filterValidItems kvs = .ok valid) :
    ∀ kv ∈ valid, kv ∈ kvs ∧
      ∃ q : ℚ, pyGetItem kv.2 "quantity" = .ok (.num q) ∧ 0 < q := by
  induction kvs generalizing valid with
  | nil =>
    simp only [filterValidItems, Except.ok.injEq] at h
    subst h
    simp
  | cons kv rest ih =>
    simp only [filterValidItems] at h
    cases hq : pyGetItem kv.2 "quantity" with
    | error e => simp [hq] at h
    | ok qJ =>
      simp only [hq] at h
      cases hb : pyGtZero qJ with
      | error e => simp [hb] at h
      | ok b =>
        simp only [hb] at h
        cases ht : filterValidItems rest with
        | error e => simp [ht] at h
        | ok tail =>
          simp only [ht, Except.ok.injEq] at h
          subst h
          intro kv' hkv'
          cases b with
          | false =>
            obtain ⟨hmem, hq'⟩ := ih ht kv' hkv'
            exact ⟨List.mem_cons_of_mem _ hmem, hq'⟩
          | true =>
            rcases List.mem_cons.mp hkv' with heq | hmem
            · subst heq
              obtain ⟨q, hqj, hqpos⟩ := pyGtZero_true hb
              exact ⟨List.mem_cons_self _ _, q, hqj ▸ hq, hqpos⟩
            · obtain ⟨hmem', hq'⟩ := ih ht kv' hmem
              exact ⟨List.mem_cons_of_mem _ hmem', hq'⟩

lemma processItems_ok {tok : Int} {cust : Json} {ts : String}
    {l : List (String × Json)} {rows : List OrderRow}
    {entries : List ReceiptItem} {total : ℚ}
    (h : processItems tok cust ts l = .ok (rows, entries, total)) :
    rows = entries.map
      (fun e => ⟨tok, cust, e.item_name, e.quantity, e.price, e.amount, ts⟩) ∧
    (∀ e ∈ entries, e.amount = e.quantity * e.price ∧
      ∃ kv ∈ l, kv.1 = e.item_name ∧
        pyGetItem kv.2 "quantity" = .ok (.num e.quantity) ∧
        pyGetItem kv.2 "price" = .ok (.num e.price)) ∧
    total = (entries.map ReceiptItem.amount).sum ∧
    entries.length = l.length := by
  induction l generalizing rows entries total with
  | nil =>
    simp only [processItems, Except.ok.injEq, Prod.mk.injEq] at h
    obtain ⟨h1, h2, h3⟩ := h
    subst h1; subst h2; subst h3
    simp
  | cons kv rest ih =>
    simp only [processItems] at h
    cases hq : pyGetItem kv.2 "quantity" with
    | error e => simp [hq] at h
    | ok qJ =>
      simp only [hq] at h
      cases hp : pyGetItem kv.2 "price" with
      | error e => simp [hp] at h
      | ok pJ =>
        simp only [hp] at h
        cases qJ <;> cases pJ <;> try { simp at h }
        case num.num q p =>
        cases hbind : bindValue cust with
        | error e => simp [hbind] at h
        | ok u =>
          simp only [hbind] at h
          cases hrec : processItems tok cust ts rest with
          | error e => simp [hrec] at h
          | ok triple =>
            obtain ⟨rows', entries', total'⟩ := triple
            simp only [hrec, Except.ok.injEq, Prod.mk.injEq] at h
            obtain ⟨h1, h2, h3⟩ := h
            subst h1; subst h2; subst h3
            obtain ⟨ihrows, ihmem, ihtot, ihlen⟩ := ih hrec
            refine ⟨by simp [ihrows], ?_, by simp [ihtot], by simp [ihlen]⟩
            intro e he
            rcases List.mem_cons.mp he with heq | hmem
            · subst heq
              exact ⟨rfl, kv, List.mem_cons_self _ _, rfl, hq, hp⟩
            · obtain ⟨hamt, kv', hkv', hrest⟩ := ihmem e hmem
              exact ⟨hamt, kv', List.mem_cons_of_mem _ hkv', hrest⟩

end OrderQueue

namespace OrderQueue

/-! ## Shape of a `generate_token` run -/

/-- Exhaustive case analysis of `genBody`: it raises an exception, returns a
400 with the state untouched, or commits one token row and the processed
order rows. -/
lemma genBody_shape (db : DB) (req : GenReq) :
    (∃ e, genBody db req = .error e) ∨
    (∃ e, genBody db req = .ok (.badRequest e, db)) ∨
    (∃ ikvs valid rows entries total cust,
      pyGetItem req.data "items" = .ok (.obj ikvs) ∧
      filterValidItems ikvs = .ok valid ∧ valid ≠ [] ∧
      pyGetItem req.data "customer_id" = .ok cust ∧
      processItems (pyOr999 (maxTok db.tokens) + 1) cust req.current_time valid
        = .ok (rows, entries, total) ∧
      genBody db req =
        .ok (.ok ⟨pyOr999 (maxTok db.tokens) + 1, req.current_time, total,
                  entries, cust, req.formatted_time⟩,
             ⟨db.orders ++ rows,
              db.tokens ++ [⟨pyOr999 (maxTok db.tokens) + 1, cust,
                             req.current_time, total⟩]⟩)) := by
  by_cases htr : pythonTruthy req.data = false
  · exact Or.inr (Or.inl ⟨"Invalid order data", by simp [genBody, htr]⟩)
  · cases hci : pyContains "items" req.data with
    | error e => exact Or.inl ⟨e, by simp [genBody, htr, hci]⟩
    | ok b =>
      cases b with
      | false =>
        exact Or.inr (Or.inl ⟨"Invalid order data", by simp [genBody, htr, hci]⟩)
      | true =>
        cases hcc : pyContains "customer_id" req.data with
        | error e => exact Or.inl ⟨e, by simp [genBody, htr, hci, hcc]⟩
        | ok b' =>
          cases b' with
          | false =>
            exact Or.inr (Or.inl ⟨"Invalid order data",
              by simp [genBody, htr, hci, hcc]⟩)
          | true =>
            cases hgi : pyGetItem req.data "items" with
            | error e => exact Or.inl ⟨e, by simp [genBody, htr, hci, hcc, hgi]⟩
            | ok itemsJ =>
              cases itemsJ with
              | null =>
                exact Or.inl ⟨"object has no attribute items",
                  by simp [genBody, htr, hci, hcc, hgi]⟩
              | num q =>
                exact Or.inl ⟨"object has no attribute items",
                  by simp [genBody, htr, hci, hcc, hgi]⟩
              | str s =>
                exact Or.inl ⟨"object has no attribute items",
                  by simp [genBody, htr, hci, hcc, hgi]⟩
              | obj ikvs =>
                cases hfv : filterValidItems ikvs with
                | error e =>
                  exact Or.inl ⟨e, by simp [genBody, htr, hci, hcc, hgi, hfv]⟩
                | ok valid =>
                  cases hv : valid with
                  | nil =>
                    exact Or.inr (Or.inl ⟨"No items in order",
                      by simp [genBody, htr, hci, hcc, hgi, hfv, hv]⟩)
                  | cons v vs =>
                    cases hgc : pyGetItem req.data "customer_id" with
                    | error e =>
                      exact Or.inl ⟨e,
                        by simp [genBody, htr, hci, hcc, hgi, hfv, hv, hgc]⟩
                    | ok cust =>
                      cases hpr : processItems (pyOr999 (maxTok db.tokens) + 1)
                          cust req.current_time (v :: vs) with
                      | error e =>
                        exact Or.inl ⟨e,
                          by simp [genBody, htr, hci, hcc, hgi, hfv, hv, hgc, hpr]⟩
                      | ok triple =>
                        obtain ⟨rows, entries, total⟩ := triple
                        refine Or.inr (Or.inr ⟨ikvs, v :: vs, rows, entries, total,
                          cust, rfl, hv ▸ hfv, by simp, rfl, hpr, ?_⟩)
                        simp [genBody, htr, hci, hcc, hgi, hfv, hv, hgc, hpr]

/-- Exhaustive case analysis of the `/generate_token` handler: a 500 or a
400 leaves the state unchanged; a 200 commits exactly one token row plus
the processed order rows and reports the token number
`(max_token or 999) + 1`. -/
lemma generate_token_shape (db : DB) (req : GenReq) :
    (∃ e, generate_token db req = (.serverError e, db)) ∨
    (∃ e, generate_token db req = (.badRequest e, db)) ∨
    (∃ ikvs valid rows entries total cust,
      pyGetItem req.data "items" = .ok (.obj ikvs) ∧
      filterValidItems ikvs = .ok valid ∧ valid ≠ [] ∧
      pyGetItem req.data "customer_id" = .ok cust ∧
      processItems (pyOr999 (maxTok db.tokens) + 1) cust req.current_time valid
        = .ok (rows, entries, total) ∧
      generate_token db req =
        (.ok ⟨pyOr999 (maxTok db.tokens) + 1, req.current_time, total,
              entries, cust, req.formatted_time⟩,
         ⟨db.orders ++ rows,
          db.tokens ++ [⟨pyOr999 (maxTok db.tokens) + 1, cust,
                         req.current_time, total⟩]⟩)) := by
  rcases genBody_shape db req with ⟨e, he⟩ | ⟨e, he⟩ |
    ⟨ikvs, valid, rows, entries, total, cust, h1, h2, h3, h4, h5, h6⟩
  · exact Or.inl ⟨e, by simp [generate_token, he]⟩
  · exact Or.inr (Or.inl ⟨e, by simp [generate_token, he]⟩)
  · exact Or.inr (Or.inr ⟨ikvs, valid, rows, entries, total, cust,
      h1, h2, h3, h4, h5, by simp [generate_token, h6]⟩)

/-- A failed `generate_token` call (a 400 or a 500) leaves the database
unchanged: the validation failures return before touching the store and an
exception rolls the transaction back. -/
lemma generate_token_fail {db : DB} {req : GenReq} {resp : GenResp} {db₂ : DB}
    (h : generate_token db req = (resp, db₂))
    (hne : ∀ rec, resp ≠ GenResp.ok rec) : db₂ = db := by
  rcases generate_token_shape db req with ⟨e, he⟩ | ⟨e, he⟩ |
    ⟨_, _, _, entries, total, cust, _, _, _, _, _, he⟩
  · rw [he] at h
    exact (Prod.mk.injEq _ _ _ _ ▸ h).2.symm
  · rw [he] at h
    exact (Prod.mk.injEq _ _ _ _ ▸ h).2.symm
  · rw [he] at h
    have := (Prod.mk.injEq _ _ _ _ ▸ h).1
    exact absurd this.symm (hne _)

/-- A successful `generate_token` call commits exactly one token row
(numbered `(max_token or 999) + 1`) and the order rows produced by
`processItems` on the surviving items. -/
lemma generate_token_ok {db : DB} {req : GenReq} {rec : Receipt} {db₂ : DB}
    (h : generate_token db req = (.ok rec, db₂)) :
    ∃ ikvs valid rows,
      pyGetItem req.data "items" = .ok (.obj ikvs) ∧
      filterValidItems ikvs = .ok valid ∧ valid ≠ [] ∧
      pyGetItem req.data "customer_id" = .ok rec.customer_id ∧
      rec.token_number = pyOr999 (maxTok db.tokens) + 1 ∧
      rec.timestamp = req.current_time ∧
      rec.formatted_time = req.formatted_time ∧
      processItems rec.token_number rec.customer_id req.current_time valid
        = .ok (rows, rec.items, rec.total) ∧
      db₂ = ⟨db.orders ++ rows,
             db.tokens ++ [⟨rec.token_number, rec.customer_id,
                            req.current_time, rec.total⟩]⟩ := by
  rcases generate_token_shape db req with ⟨e, he⟩ | ⟨e, he⟩ |
    ⟨ikvs, valid, rows, entries, total, cust, h1, h2, h3, h4, h5, h6⟩
  · rw [he] at h
    cases (Prod.mk.injEq _ _ _ _ ▸ h).1
  · rw [he] at h
    cases (Prod.mk.injEq _ _ _ _ ▸ h).1
  · rw [h6] at h
    obtain ⟨hrec, hdb⟩ := Prod.mk.injEq _ _ _ _ ▸ h
    cases hrec
    exact ⟨ikvs, valid, rows, h1, h2, h3, h4, rfl, rfl, rfl, h5, hdb.symm⟩

end OrderQueue

namespace OrderQueue

/-! ## Preservation of the invariant -/

lemma clear_orders_state (db : DB) : (clear_orders db).2 = ⟨[], [sentinel]⟩ := by
  simp [clear_orders, insertOrIgnoreSentinel]

lemma Inv_clear (db : DB) : Inv (clear_orders db).2 := by
  rw [clear_orders_state]
  refine ⟨by simp, ?_, by simp, by simp, by simp⟩
  intro t ht
  simp only [List.mem_singleton] at ht
  subst ht
  simp [sentinel]

lemma Inv_init {db : DB} (h : Inv db) : Inv (init_db db) := by
  unfold init_db insertOrIgnoreSentinel
  by_cases ha : db.tokens.any (fun t => t.token_number == 999)
  · simpa [ha] using ⟨h.tokens_ne, h.tokens_ge, h.tokens_nodup, h.orders_ge,
      h.orders_qty_pos⟩
  · simp only [ha, if_false, Bool.false_eq_true]
    refine ⟨by simp, ?_, ?_, h.orders_ge, h.orders_qty_pos⟩
    · intro t ht
      rcases List.mem_append.mp ht with ht | ht
      · exact h.tokens_ge t ht
      · simp only [List.mem_singleton] at ht
        subst ht
        simp [sentinel]
    · rw [List.map_append, List.nodup_append]
      refine ⟨h.tokens_nodup, by simp, ?_⟩
      intro n hn hn'
      simp only [List.map_singleton, sentinel, List.mem_singleton] at hn'
      subst hn'
      obtain ⟨t, ht, hteq⟩ := List.mem_map.mp hn
      simp only [Bool.not_eq_true, List.any_eq_false] at ha
      have hfalse := ha t ht
      simp [hteq] at hfalse

lemma Inv_empty : Inv (init_db DB.empty) := by
  unfold init_db insertOrIgnoreSentinel DB.empty
  refine ⟨by simp, ?_, by simp, by simp, by simp⟩
  intro t ht
  simp only [List.any_nil, Bool.false_eq_true, if_false, List.nil_append,
    List.mem_singleton] at ht
  subst ht
  simp [sentinel]

lemma Inv_place (db : DB) (req : GenReq) (hI : Inv db) :
    Inv (generate_token db req).2 := by
  rcases generate_token_shape db req with ⟨e, he⟩ | ⟨e, he⟩ |
    ⟨ikvs, valid, rows, entries, total, cust, h1, h2, h3, h4, h5, h6⟩
  · rw [he]; exact hI
  · rw [he]; exact hI
  · rw [h6]
    obtain ⟨m, hm, hm999⟩ := hI.maxTok_some
    rw [hm, pyOr999_of_ge hm999] at h5 ⊢
    obtain ⟨hrows, hmem, -, -⟩ := processItems_ok h5
    refine ⟨by simp, ?_, ?_, ?_, ?_⟩
    · intro t ht
      rcases List.mem_append.mp ht with ht | ht
      · exact hI.tokens_ge t ht
      · simp only [List.mem_singleton] at ht
        subst ht
        simp only []
        omega
    · rw [List.map_append, List.nodup_append]
      refine ⟨hI.tokens_nodup, by simp, ?_⟩
      intro n hn hn'
      simp only [List.map_singleton, List.mem_singleton] at hn'
      subst hn'
      obtain ⟨t, ht, hteq⟩ := List.mem_map.mp hn
      obtain ⟨m', hm', hle⟩ := le_maxTok_of_mem ht
      rw [hm] at hm'
      cases hm'
      omega
    · intro o ho
      rcases List.mem_append.mp ho with ho | ho
      · exact hI.orders_ge o ho
      · rw [hrows] at ho
        obtain ⟨e', he', heq⟩ := List.mem_map.mp ho
        rw [← heq]
        simp only []
        omega
    · intro o ho
      rcases List.mem_append.mp ho with ho | ho
      · exact hI.orders_qty_pos o ho
      · rw [hrows] at ho
        obtain ⟨e', he', heq⟩ := List.mem_map.mp ho
        obtain ⟨-, kv, hkv, -, hq, -⟩ := hmem e' he'
        obtain ⟨-, q, hq', hqpos⟩ := filterValidItems_ok h2 kv hkv
        rw [hq'] at hq
        injection hq with hq
        injection hq with hq
        rw [← heq]
        simp only []
        exact hq ▸ hqpos

/-- Every reachable state satisfies the structural invariant. -/
lemma reachable_inv {db : DB} (h : Reachable db) : Inv db := by
  induction h with
  | init => exact Inv_empty
  | initAgain _ ih => exact Inv_init ih
  | place _ req ih => exact Inv_place _ req ih
  | clear _ ih => exact Inv_clear _

end OrderQueue

namespace OrderQueue

/-! ## Monotonicity of assigned token numbers -/

lemma generate_token_ok_maxTok {db : DB} {req : GenReq} {rec : Receipt}
    {db₂ : DB} (hI : Inv db) (h : generate_token db req = (.ok rec, db₂)) :
    ∃ m, maxTok db.tokens = some m ∧ (999:Int) ≤ m ∧
      rec.token_number = m + 1 ∧ maxTok db₂.tokens = some (m + 1) := by
  obtain ⟨m, hm, hm999⟩ := hI.maxTok_some
  obtain ⟨ikvs, valid, rows, -, -, -, -, htok, -, -, -, hdb⟩ := generate_token_ok h
  rw [hm, pyOr999_of_ge hm999] at htok
  refine ⟨m, hm, hm999, htok, ?_⟩
  rw [hdb]
  simp only [maxTok_append, hm, Option.elim, htok]
  rw [max_eq_right (by omega)]

lemma runPlace_spec {db : DB} (hI : Inv db) {m : Int}
    (hm : maxTok db.tokens = some m) (rs : List GenReq) :
    List.Chain' (· < ·) (runPlace db rs).2 ∧
    (∀ k ∈ (runPlace db rs).2, m < k) ∧
    (∀ k, (runPlace db rs).2.head? = some k → k = m + 1) := by
  induction rs generalizing db m with
  | nil => simp [runPlace]
  | cons r rs ih =>
    cases hg : generate_token db r with
    | mk resp db' =>
      cases resp with
      | ok rec =>
        obtain ⟨m', hm', -, htok, hmax'⟩ := generate_token_ok_maxTok hI hg
        rw [hm] at hm'
        cases hm'
        have hI' : Inv db' := by
          have := Inv_place db r hI
          rw [hg] at this
          exact this
        obtain ⟨hchain, hgt, hhead⟩ := ih hI' hmax'
        simp only [runPlace, hg]
        refine ⟨?_, ?_, ?_⟩
        · rw [List.chain'_cons']
          refine ⟨?_, hchain⟩
          intro b hb
          have := hhead b hb
          omega
        · intro k hk
          rcases List.mem_cons.mp hk with hk | hk
          · omega
          · have := hgt k hk
            omega
        · intro k hk
          simp only [List.head?_cons, Option.some.injEq] at hk
          omega
      | badRequest e =>
        have hdb : db' = db := generate_token_fail hg (by intro rec h; cases h)
        subst hdb
        simpa only [runPlace, hg] using ih hI hm
      | serverError e =>
        have hdb : db' = db := generate_token_fail hg (by intro rec h; cases h)
        subst hdb
        simpa only [runPlace, hg] using ih hI hm

end OrderQueue

namespace OrderQueue

/-! ## Claim theorems -/

lemma maxTok_initial : maxTok (init_db DB.empty).tokens = some 999 := rfl

lemma maxTok_cleared (db : DB) : maxTok (clear_orders db).2.tokens = some 999 := rfl

/-- C1: for every sequence of `PlaceOrder` calls on a reachable state with
no intervening clear, the token numbers assigned by the successful calls
are strictly increasing; if the state is freshly initialized or freshly
cleared, the first successful call is assigned 1000; and every successful
call is assigned `max(token_number) + 1` over the `tokens` rows. -/
theorem monotonic_tokens (db : DB) (h : Reachable db) (rs : List GenReq) :
    List.Chain' (· < ·) (runPlace db rs).2 ∧
    ((db = init_db DB.empty ∨ (∃ d, db = (clear_orders d).2)) →
      ∀ k, (runPlace db rs).2.head? = some k → k = 1000) ∧
    (∀ req rec db₂, generate_token db req = (.ok rec, db₂) →
      ∃ m, maxTok db.tokens = some m ∧ rec.token_number = m + 1) := by
  have hI := reachable_inv h
  obtain ⟨m, hm, hm999⟩ := hI.maxTok_some
  obtain ⟨hchain, hgt, hhead⟩ := runPlace_spec hI hm rs
  refine ⟨hchain, ?_, ?_⟩
  · rintro (hdb | ⟨d, hdb⟩) k hk
    · have h999 : maxTok db.tokens = some 999 := hdb ▸ maxTok_initial
      rw [hm] at h999
      cases h999
      exact hhead k hk
    · have h999 : maxTok db.tokens = some 999 := hdb ▸ maxTok_cleared d
      rw [hm] at h999
      cases h999
      exact hhead k hk
  · intro req rec db₂ hgen
    obtain ⟨m', hm', -, htok, -⟩ := generate_token_ok_maxTok hI hgen
    exact ⟨m', hm', htok⟩

/-- Witness for C1 at the freshly initialized state and two concrete
requests. -/
theorem monotonic_tokens_witness :
    List.Chain' (· < ·) (runPlace (init_db DB.empty) [reqTea, reqIdli]).2 ∧
    ((init_db DB.empty = init_db DB.empty ∨
      (∃ d, init_db DB.empty = (clear_orders d).2)) →
      ∀ k, (runPlace (init_db DB.empty) [reqTea, reqIdli]).2.head? = some k →
        k = 1000) ∧
    (∀ req rec db₂,
      generate_token (init_db DB.empty) req = (.ok rec, db₂) →
      ∃ m, maxTok (init_db DB.empty).tokens = some m ∧
        rec.token_number = m + 1) :=
  monotonic_tokens (init_db DB.empty) Reachable.init [reqTea, reqIdli]

/-- C7: `ClearQueue` wipes both tables and reinserts the sentinel as one
atomic state change, it is idempotent, and a successful `PlaceOrder` on a
just-cleared state is assigned token 1000 again. -/
theorem clear_idempotent (db : DB) :
    (clear_orders db).2 = ⟨[], [sentinel]⟩ ∧
    (clear_orders db).1 = ⟨"success", "All orders cleared"⟩ ∧
    clear_orders (clear_orders db).2 = clear_orders db ∧
    (∀ req rec db₂,
      generate_token (clear_orders db).2 req = (.ok rec, db₂) →
      rec.token_number = 1000) := by
  refine ⟨clear_orders_state db, rfl, rfl, ?_⟩
  intro req rec db₂ hgen
  obtain ⟨m, hm, -, htok, -⟩ := generate_token_ok_maxTok (Inv_clear db) hgen
  rw [maxTok_cleared db] at hm
  cases hm
  omega

/-- Witness for C7 at the freshly initialized state. -/
theorem clear_idempotent_witness :
    (clear_orders (init_db DB.empty)).2 = ⟨[], [sentinel]⟩ ∧
    (clear_orders (init_db DB.empty)).1 = ⟨"success", "All orders cleared"⟩ ∧
    clear_orders (clear_orders (init_db DB.empty)).2 =
      clear_orders (init_db DB.empty) ∧
    (∀ req rec db₂,
      generate_token (clear_orders (init_db DB.empty)).2 req = (.ok rec, db₂) →
      rec.token_number = 1000) :=
  clear_idempotent (init_db DB.empty)

/-- Counterexample to C4 as stated: on the lifetime
`place, clear, place` the assigned token numbers are `[1000, 1000]` — the
number 1000 is reused after the clear, so the lifetime sequence is not
strictly increasing. -/
theorem token_reuse_after_clear :
    (runOps (init_db DB.empty) [.place reqTea, .clear, .place reqTea]).2
      = [1000, 1000] ∧
    ¬ List.Chain' (· < ·)
      (runOps (init_db DB.empty) [.place reqTea, .clear, .place reqTea]).2 := by
  have h :
      (runOps (init_db DB.empty) [.place reqTea, .clear, .place reqTea]).2
        = [1000, 1000] := by
    simp [runOps, generate_token, genBody, reqTea, init_db, DB.empty,
      insertOrIgnoreSentinel, pythonTruthy, pyContains, pyGetItem, pyGtZero,
      filterValidItems, processItems, bindValue, maxTok, pyOr999, sentinel,
      clear_orders, List.find?, List.any, List.isEmpty]
  refine ⟨h, ?_⟩
  rw [h]
  intro hc
  rw [List.chain'_cons] at hc
  omega

/-- C4 as amended: token numbers are strictly increasing across any
clear-free span of successful `PlaceOrder` calls, but `ClearQueue` resets
the anchor to the sentinel, so the next successful call is assigned 1000
again and numbers assigned before a clear can be reused after it. -/
theorem tokens_monotonic_between_clears (db : DB) (h : Reachable db)
    (rs : List GenReq) :
    List.Chain' (· < ·) (runPlace db rs).2 ∧
    (∀ d req rec db₂,
      generate_token (clear_orders d).2 req = (.ok rec, db₂) →
      rec.token_number = 1000) := by
  have hI := reachable_inv h
  obtain ⟨m, hm, -⟩ := hI.maxTok_some
  refine ⟨(runPlace_spec hI hm rs).1, ?_⟩
  intro d req rec db₂ hgen
  obtain ⟨m', hm', -, htok, -⟩ := generate_token_ok_maxTok (Inv_clear d) hgen
  rw [maxTok_cleared d] at hm'
  cases hm'
  omega

/-- Witness for the amended C4. -/
theorem tokens_monotonic_between_clears_witness :
    List.Chain' (· < ·) (runPlace (init_db DB.empty) [reqTea, reqIdli]).2 ∧
    (∀ d req rec db₂,
      generate_token (clear_orders d).2 req = (.ok rec, db₂) →
      rec.token_number = 1000) :=
  tokens_monotonic_between_clears (init_db DB.empty) Reachable.init
    [reqTea, reqIdli]

end OrderQueue

namespace OrderQueue

lemma processItems_quantities_pos {tok : Int} {cust : Json} {ts : String}
    {ikvs valid : List (String × Json)} {rows : List OrderRow}
    {entries : List ReceiptItem} {total : ℚ}
    (h2 : filterValidItems ikvs = .ok valid)
    (h5 : processItems tok cust ts valid = .ok (rows, entries, total)) :
    (∀ e ∈ entries, 0 < e.quantity) ∧ (∀ o ∈ rows, 0 < o.quantity) := by
  obtain ⟨hrows, hmem, -, -⟩ := processItems_ok h5
  have hent : ∀ e ∈ entries, 0 < e.quantity := by
    intro e he
    obtain ⟨-, kv, hkv, -, hq, -⟩ := hmem e he
    obtain ⟨-, q, hq', hqpos⟩ := filterValidItems_ok h2 kv hkv
    rw [hq'] at hq
    injection hq with hq
    injection hq with hq
    exact hq ▸ hqpos
  refine ⟨hent, ?_⟩
  intro o ho
  rw [hrows] at ho
  obtain ⟨e, he, heq⟩ := List.mem_map.mp ho
  rw [← heq]
  exact hent e he

/-- C5: on a successful `PlaceOrder`, every returned item's `amount` is
exactly `quantity * price`, the returned `total` is the sum of the item
amounts, every persisted order row's `amount` is exactly
`quantity * price`, and the persisted token row's `total_amount` equals
that same total. -/
theorem amount_computation (db : DB) (req : GenReq) (rec : Receipt)
    (db₂ : DB) (h : generate_token db req = (.ok rec, db₂)) :
    (∀ e ∈ rec.items, e.amount = e.quantity * e.price) ∧
    rec.total = (rec.items.map ReceiptItem.amount).sum ∧
    (∃ rows,
      db₂.orders = db.orders ++ rows ∧
      (∀ o ∈ rows, o.amount = o.quantity * o.price) ∧
      (rows.map OrderRow.amount).sum = rec.total ∧
      db₂.tokens = db.tokens ++
        [⟨rec.token_number, rec.customer_id, rec.timestamp, rec.total⟩]) := by
  obtain ⟨ikvs, valid, rows, -, -, -, -, -, hts, -, h5, hdb⟩ := generate_token_ok h
  obtain ⟨hrows, hmem, htot, -⟩ := processItems_ok h5
  refine ⟨fun e he => (hmem e he).1, htot, rows, by rw [hdb], ?_, ?_, ?_⟩
  · intro o ho
    rw [hrows] at ho
    obtain ⟨e, he, heq⟩ := List.mem_map.mp ho
    rw [← heq]
    exact (hmem e he).1
  · rw [hrows, htot, List.map_map]
    rfl
  · rw [hdb, hts]

/-- Witness for C5: the spec's concrete scenario evaluated end to end. -/
theorem amount_computation_witness :
    (∀ e ∈ [ReceiptItem.mk "tea" 2 10 20], e.amount = e.quantity * e.price) ∧
    (20:ℚ) = ([ReceiptItem.mk "tea" 2 10 20].map ReceiptItem.amount).sum ∧
    (∃ rows,
      (⟨[⟨1000, Json.str "c1", "tea", 2, 10, 20, "2024-01-01T10:00:00"⟩],
        [sentinel, ⟨1000, Json.str "c1", "2024-01-01T10:00:00", 20⟩]⟩ : DB).orders
        = dbInit.orders ++ rows ∧
      (∀ o ∈ rows, o.amount = o.quantity * o.price) ∧
      (rows.map OrderRow.amount).sum = (20:ℚ) ∧
      (⟨[⟨1000, Json.str "c1", "tea", 2, 10, 20, "2024-01-01T10:00:00"⟩],
        [sentinel, ⟨1000, Json.str "c1", "2024-01-01T10:00:00", 20⟩]⟩ : DB).tokens
        = dbInit.tokens ++
          [⟨1000, Json.str "c1", "2024-01-01T10:00:00", 20⟩]) := by
  have h := amount_computation dbInit reqTea
    ⟨1000, "2024-01-01T10:00:00", 20, [⟨"tea", 2, 10, 20⟩], Json.str "c1",
      "01 Jan 2024, 10:00 AM"⟩
    ⟨[⟨1000, Json.str "c1", "tea", 2, 10, 20, "2024-01-01T10:00:00"⟩],
     [sentinel, ⟨1000, Json.str "c1", "2024-01-01T10:00:00", 20⟩]⟩
    (by simp [generate_token, genBody, dbInit, reqTea, init_db, DB.empty,
          insertOrIgnoreSentinel, pythonTruthy, pyContains, pyGetItem,
          pyGtZero, filterValidItems, processItems, bindValue, maxTok,
          pyOr999, sentinel]
        norm_num)
  exact h

/-- C6: an item entry with non-positive quantity is never persisted (every
orders row added by a `PlaceOrder` call has positive quantity), never
appears in the response's item list, and the response total is exactly the
sum over the accepted (positive-quantity) items. -/
theorem quantity_filtering (db : DB) (req : GenReq) :
    (∀ o ∈ (generate_token db req).2.orders, o ∈ db.orders ∨ 0 < o.quantity) ∧
    (∀ rec, (generate_token db req).1 = .ok rec →
      (∀ e ∈ rec.items, 0 < e.quantity) ∧
      rec.total = (rec.items.map ReceiptItem.amount).sum) := by
  rcases generate_token_shape db req with ⟨e, he⟩ | ⟨e, he⟩ |
    ⟨ikvs, valid, rows, entries, total, cust, h1, h2, h3, h4, h5, h6⟩
  · rw [he]
    exact ⟨fun o ho => Or.inl ho, fun rec hrec => by cases hrec⟩
  · rw [he]
    exact ⟨fun o ho => Or.inl ho, fun rec hrec => by cases hrec⟩
  · rw [h6]
    obtain ⟨hent, hrow⟩ := processItems_quantities_pos h2 h5
    obtain ⟨-, -, htot, -⟩ := processItems_ok h5
    constructor
    · intro o ho
      rcases List.mem_append.mp ho with ho | ho
      · exact Or.inl ho
      · exact Or.inr (hrow o ho)
    · intro rec hrec
      injection hrec with hrec
      subst hrec
      exact ⟨hent, htot⟩

/-- Witness for C6 at the spec's concrete scenario (which contains a
zero-quantity entry). -/
theorem quantity_filtering_witness :
    (∀ o ∈ (generate_token dbInit reqTea).2.orders,
      o ∈ dbInit.orders ∨ 0 < o.quantity) ∧
    (∀ rec, (generate_token dbInit reqTea).1 = .ok rec →
      (∀ e ∈ rec.items, 0 < e.quantity) ∧
      rec.total = (rec.items.map ReceiptItem.amount).sum) :=
  quantity_filtering dbInit reqTea

end OrderQueue

namespace OrderQueue

/-! ## Characterization of the 400 (InvalidInput) responses -/

lemma pyGetItem_of_any {kvs : List (String × Json)} {key : String}
    (h : kvs.any (fun kv => kv.1 == key) = true) :
    ∃ v, pyGetItem (Json.obj kvs) key = .ok v := by
  cases hf : kvs.find? (fun kv => kv.1 == key) with
  | some kv => exact ⟨kv.2, by simp [pyGetItem, hf]⟩
  | none =>
    rw [List.find?_eq_none] at hf
    obtain ⟨kv, hkv, hkey⟩ := List.any_eq_true.mp h
    exact absurd hkey (by simpa using hf kv hkv)

lemma pythonTruthy_obj {kvs : List (String × Json)} (h : kvs ≠ []) :
    pythonTruthy (Json.obj kvs) = true := by
  cases kvs with
  | nil => exact absurd rfl h
  | cons kv rest => simp [pythonTruthy]

/-- `genBody` returns a 400 exactly when the body is the empty object, the
`items` key is absent, the `customer_id` key is absent, or the items
object filters down to nothing. -/
lemma genBody_badRequest_iff (db : DB) (ct ft : String)
    (kvs : List (String × Json)) :
    (∃ e db', genBody db ⟨Json.obj kvs, ct, ft⟩ = .ok (.badRequest e, db')) ↔
      (kvs = [] ∨
       (∀ kv ∈ kvs, kv.1 ≠ "items") ∨
       (∀ kv ∈ kvs, kv.1 ≠ "customer_id") ∨
       (∃ ikvs, pyGetItem (Json.obj kvs) "items" = .ok (.obj ikvs) ∧
         filterValidItems ikvs = .ok [])) := by
  by_cases hkvs : kvs = []
  · subst hkvs
    exact ⟨fun _ => Or.inl rfl,
      fun _ => ⟨"Invalid order data", db, by simp [genBody, pythonTruthy]⟩⟩
  · have htr := pythonTruthy_obj hkvs
    cases hci : kvs.any (fun kv => kv.1 == "items") with
    | false =>
      constructor
      · intro _
        refine Or.inr (Or.inl ?_)
        intro kv hkv
        simpa using List.any_eq_false.mp hci kv hkv
      · intro _
        exact ⟨"Invalid order data", db,
          by simp [genBody, htr, pyContains, hci]⟩
    | true =>
      have hItems : ∃ kv ∈ kvs, kv.1 = "items" := by
        obtain ⟨kv, hkv, hk⟩ := List.any_eq_true.mp hci
        exact ⟨kv, hkv, by simpa using hk⟩
      cases hcc : kvs.any (fun kv => kv.1 == "customer_id") with
      | false =>
        constructor
        · intro _
          refine Or.inr (Or.inr (Or.inl ?_))
          intro kv hkv
          simpa using List.any_eq_false.mp hcc kv hkv
        · intro _
          exact ⟨"Invalid order data", db,
            by simp [genBody, htr, pyContains, hci, hcc]⟩
      | true =>
        have hCust : ∃ kv ∈ kvs, kv.1 = "customer_id" := by
          obtain ⟨kv, hkv, hk⟩ := List.any_eq_true.mp hcc
          exact ⟨kv, hkv, by simpa using hk⟩
        obtain ⟨v, hv⟩ := pyGetItem_of_any hci
        have killFirstThree :
            ∀ {P : Prop},
              (kvs = [] ∨ (∀ kv ∈ kvs, kv.1 ≠ "items") ∨
               (∀ kv ∈ kvs, kv.1 ≠ "customer_id") ∨ P) → P := by
          rintro P (h | h | h | h)
          · exact absurd h hkvs
          · obtain ⟨kv, hkv, hk⟩ := hItems
            exact absurd hk (h kv hkv)
          · obtain ⟨kv, hkv, hk⟩ := hCust
            exact absurd hk (h kv hkv)
          · exact h
        cases v with
        | null =>
          constructor
          · rintro ⟨e, db', hgb⟩
            simp [genBody, htr, pyContains, hci, hcc, hv] at hgb
          · intro hrhs
            obtain ⟨ikvs, hik, -⟩ := killFirstThree hrhs
            rw [hv] at hik
            cases hik
        | num q =>
          constructor
          · rintro ⟨e, db', hgb⟩
            simp [genBody, htr, pyContains, hci, hcc, hv] at hgb
          · intro hrhs
            obtain ⟨ikvs, hik, -⟩ := killFirstThree hrhs
            rw [hv] at hik
            cases hik
        | str s =>
          constructor
          · rintro ⟨e, db', hgb⟩
            simp [genBody, htr, pyContains, hci, hcc, hv] at hgb
          · intro hrhs
            obtain ⟨ikvs, hik, -⟩ := killFirstThree hrhs
            rw [hv] at hik
            cases hik
        | obj ikvs =>
          cases hfv : filterValidItems ikvs with
          | error e' =>
            constructor
            · rintro ⟨e, db', hgb⟩
              simp [genBody, htr, pyContains, hci, hcc, hv, hfv] at hgb
            · intro hrhs
              obtain ⟨ikvs', hik, hfe⟩ := killFirstThree hrhs
              rw [hv] at hik
              injection hik with hik
              injection hik with hik
              subst hik
              rw [hfv] at hfe
              cases hfe
          | ok valid =>
            cases valid with
            | nil =>
              constructor
              · intro _
                exact Or.inr (Or.inr (Or.inr ⟨ikvs, hv, hfv⟩))
              · intro _
                exact ⟨"No items in order", db,
                  by simp [genBody, htr, pyContains, hci, hcc, hv, hfv]⟩
            | cons v0 vs =>
              obtain ⟨cv, hcv⟩ := pyGetItem_of_any hcc
              have hD : ¬ ∃ ikvs',
                  pyGetItem (Json.obj kvs) "items" = .ok (.obj ikvs') ∧
                  filterValidItems ikvs' = .ok [] := by
                rintro ⟨ikvs', hik, hfe⟩
                rw [hv] at hik
                injection hik with hik
                injection hik with hik
                subst hik
                rw [hfv] at hfe
                injection hfe with hfe
                cases hfe
              cases hpr : processItems (pyOr999 (maxTok db.tokens) + 1) cv ct
                  (v0 :: vs) with
              | error e' =>
                constructor
                · rintro ⟨e, db', hgb⟩
                  simp [genBody, htr, pyContains, hci, hcc, hv, hfv, hcv,
                    hpr] at hgb
                · intro hrhs
                  exact absurd (killFirstThree hrhs) hD
              | ok triple =>
                obtain ⟨rows, entries, total⟩ := triple
                constructor
                · rintro ⟨e, db', hgb⟩
                  simp [genBody, htr, pyContains, hci, hcc, hv, hfv, hcv,
                    hpr] at hgb
                · intro hrhs
                  exact absurd (killFirstThree hrhs) hD

end OrderQueue

namespace OrderQueue

lemma generate_token_badRequest_iff (db : DB) (req : GenReq) :
    (∃ e, (generate_token db req).1 = .badRequest e) ↔
    (∃ e db', genBody db req = .ok (.badRequest e, db')) := by
  unfold generate_token
  cases hb : genBody db req with
  | error e => simp [hb]
  | ok r =>
    obtain ⟨resp, db'⟩ := r
    cases resp <;> simp [hb]

lemma generate_token_of_genBody_error {db : DB} {req : GenReq} {e : String}
    (h : genBody db req = .error e) :
    generate_token db req = (.serverError e, db) := by
  simp [generate_token, h]

/-- C3 as amended: `PlaceOrder` on an object body returns InvalidInput
(HTTP 400) exactly when the body is the empty object, the `items` key is
absent, the `customer_id` key is absent, or the items object filters down
to no positive-quantity entries — a present-but-empty `customer_id` string
is accepted; and any non-200 outcome (400 or 500) leaves both tables
unchanged. -/
theorem invalid_input_iff (db : DB) (ct ft : String)
    (kvs : List (String × Json)) :
    ((∃ e, (generate_token db ⟨Json.obj kvs, ct, ft⟩).1 = .badRequest e) ↔
      (kvs = [] ∨
       (∀ kv ∈ kvs, kv.1 ≠ "items") ∨
       (∀ kv ∈ kvs, kv.1 ≠ "customer_id") ∨
       (∃ ikvs, pyGetItem (Json.obj kvs) "items" = .ok (.obj ikvs) ∧
         filterValidItems ikvs = .ok []))) ∧
    (∀ req resp db₂, generate_token db req = (resp, db₂) →
      (∀ rec, resp ≠ .ok rec) → db₂ = db) :=
  ⟨(generate_token_badRequest_iff db _).trans
    (genBody_badRequest_iff db ct ft kvs),
   fun _ _ _ h hne => generate_token_fail h hne⟩

/-- Witness for the amended C3, at a body whose items all have zero
quantity (which must be rejected with a 400). -/
theorem invalid_input_iff_witness :
    ((∃ e, (generate_token dbInit
        ⟨Json.obj [("customer_id", Json.str "c"),
                   ("items", Json.obj [("a", Json.obj
                     [("quantity", Json.num 0)])])], "t0", "ft0"⟩).1
        = .badRequest e) ↔
      ([("customer_id", Json.str "c"),
        ("items", Json.obj [("a", Json.obj [("quantity", Json.num 0)])])]
          = ([] : List (String × Json)) ∨
       (∀ kv ∈ [("customer_id", Json.str "c"),
        ("items", Json.obj [("a", Json.obj [("quantity", Json.num 0)])])],
          kv.1 ≠ "items") ∨
       (∀ kv ∈ [("customer_id", Json.str "c"),
        ("items", Json.obj [("a", Json.obj [("quantity", Json.num 0)])])],
          kv.1 ≠ "customer_id") ∨
       (∃ ikvs, pyGetItem (Json.obj [("customer_id", Json.str "c"),
        ("items", Json.obj [("a", Json.obj [("quantity", Json.num 0)])])])
          "items" = .ok (.obj ikvs) ∧
         filterValidItems ikvs = .ok []))) ∧
    (∀ req resp db₂, generate_token dbInit req = (resp, db₂) →
      (∀ rec, resp ≠ .ok rec) → db₂ = dbInit) :=
  invalid_input_iff dbInit "t0" "ft0"
    [("customer_id", Json.str "c"),
     ("items", Json.obj [("a", Json.obj [("quantity", Json.num 0)])])]

/-- Counterexample to C3 as stated: a request whose `customer_id` is
present but the empty string is accepted with a 200 (token 1000), not
rejected with InvalidInput. -/
theorem empty_customer_accepted :
    (generate_token dbInit reqEmptyCust).1 =
      GenResp.ok ⟨1000, "t0", 2, [⟨"tea", 1, 2, 2⟩], Json.str "", "ft0"⟩ ∧
    (∀ e, (generate_token dbInit reqEmptyCust).1 ≠ GenResp.badRequest e) := by
  have h : (generate_token dbInit reqEmptyCust).1 =
      GenResp.ok ⟨1000, "t0", 2, [⟨"tea", 1, 2, 2⟩], Json.str "", "ft0"⟩ := by
    simp [generate_token, genBody, dbInit, reqEmptyCust, init_db, DB.empty,
      insertOrIgnoreSentinel, pythonTruthy, pyContains, pyGetItem, pyGtZero,
      filterValidItems, processItems, bindValue, maxTok, pyOr999, sentinel]
  refine ⟨h, ?_⟩
  rw [h]
  intro e he
  cases he

/-! ## Errors raised by malformed items -/

lemma filterValidItems_error_of_missing_quantity
    {kvs : List (String × Json)} {kv : String × Json} (hkv : kv ∈ kvs)
    {e : String} (he : pyGetItem kv.2 "quantity" = .error e) :
    ∃ e', filterValidItems kvs = .error e' := by
  induction kvs with
  | nil => cases hkv
  | cons kv0 rest ih =>
    rcases List.mem_cons.mp hkv with heq | hmem
    · subst heq
      exact ⟨e, by simp [filterValidItems, he]⟩
    · cases hq : pyGetItem kv0.2 "quantity" with
      | error e0 => exact ⟨e0, by simp [filterValidItems, hq]⟩
      | ok qJ =>
        cases hb : pyGtZero qJ with
        | error e0 => exact ⟨e0, by simp [filterValidItems, hq, hb]⟩
        | ok b =>
          obtain ⟨e', he'⟩ := ih hmem
          exact ⟨e', by simp [filterValidItems, hq, hb, he']⟩

lemma processItems_ok_lookups {tok : Int} {cust : Json} {ts : String}
    {l : List (String × Json)}
    {x : List OrderRow × List ReceiptItem × ℚ}
    (h : processItems tok cust ts l = .ok x) :
    ∀ kv ∈ l, ∃ qj pj, pyGetItem kv.2 "quantity" = .ok qj ∧
      pyGetItem kv.2 "price" = .ok pj := by
  induction l generalizing x with
  | nil => intro kv hkv; cases hkv
  | cons kv0 rest ih =>
    intro kv hkv
    simp only [processItems] at h
    cases hq : pyGetItem kv0.2 "quantity" with
    | error e => simp [hq] at h
    | ok qJ =>
      simp only [hq] at h
      cases hp : pyGetItem kv0.2 "price" with
      | error e => simp [hp] at h
      | ok pJ =>
        simp only [hp] at h
        cases qJ <;> cases pJ <;> try { simp at h }
        case num.num q p =>
        cases hbind : bindValue cust with
        | error e => simp [hbind] at h
        | ok u =>
          simp only [hbind] at h
          cases hrec : processItems tok cust ts rest with
          | error e => simp [hrec] at h
          | ok triple =>
            rcases List.mem_cons.mp hkv with heq | hmem
            · subst heq
              exact ⟨.num q, .num p, hq, hp⟩
            · exact ih hrec kv hmem

/-- C10 as amended: if a request passes validation (non-empty object body
with `items` and `customer_id` keys) but its items value is malformed —
not an object, or containing an entry whose `quantity` field is missing,
or an entry that survives the quantity filter but whose `price` field is
missing — then `PlaceOrder` returns a 500 server error (carrying the
exception message) rather than a 400, and nothing is persisted.  (An entry
with a missing `price` that is filtered out by `quantity > 0` does not by
itself cause an error.) -/
theorem malformed_items_server_error (db : DB) (ct ft : String)
    (kvs : List (String × Json))
    (hne : kvs ≠ [])
    (hit : kvs.any (fun kv => kv.1 == "items") = true)
    (hcu : kvs.any (fun kv => kv.1 == "customer_id") = true)
    (hbad :
      (∃ v, pyGetItem (Json.obj kvs) "items" = .ok v ∧
        ∀ ikvs, v ≠ .obj ikvs) ∨
      (∃ ikvs, pyGetItem (Json.obj kvs) "items" = .ok (.obj ikvs) ∧
        ∃ kv ∈ ikvs, ∃ e, pyGetItem kv.2 "quantity" = .error e) ∨
      (∃ ikvs valid, pyGetItem (Json.obj kvs) "items" = .ok (.obj ikvs) ∧
        filterValidItems ikvs = .ok valid ∧
        ∃ kv ∈ valid, ∃ e, pyGetItem kv.2 "price" = .error e)) :
    (∃ e, (generate_token db ⟨Json.obj kvs, ct, ft⟩).1 = .serverError e) ∧
    (generate_token db ⟨Json.obj kvs, ct, ft⟩).2 = db := by
  have htr := pythonTruthy_obj hne
  have herr : ∃ e, genBody db ⟨Json.obj kvs, ct, ft⟩ = .error e := by
    rcases hbad with ⟨v, hv, hvno⟩ | ⟨ikvs, hv, kv, hkv, e, he⟩ |
      ⟨ikvs, valid, hv, hfv, kv, hkv, e, he⟩
    · cases v with
      | null => exact ⟨"object has no attribute items",
          by simp [genBody, htr, pyContains, hit, hcu, hv]⟩
      | num q => exact ⟨"object has no attribute items",
          by simp [genBody, htr, pyContains, hit, hcu, hv]⟩
      | str s => exact ⟨"object has no attribute items",
          by simp [genBody, htr, pyContains, hit, hcu, hv]⟩
      | obj ikvs => exact absurd rfl (hvno ikvs)
    · obtain ⟨e', he'⟩ := filterValidItems_error_of_missing_quantity hkv he
      exact ⟨e', by simp [genBody, htr, pyContains, hit, hcu, hv, he']⟩
    · cases hvd : valid with
      | nil => subst hvd; cases hkv
      | cons v0 vs =>
        subst hvd
        obtain ⟨cv, hcv⟩ := pyGetItem_of_any hcu
        cases hpr : processItems (pyOr999 (maxTok db.tokens) + 1) cv ct
            (v0 :: vs) with
        | error e' =>
          exact ⟨e', by simp [genBody, htr, pyContains, hit, hcu, hv, hfv,
            hcv, hpr]⟩
        | ok x =>
          obtain ⟨-, pj, -, hp⟩ := processItems_ok_lookups hpr kv hkv
          rw [he] at hp
          cases hp
  obtain ⟨e, he⟩ := herr
  rw [generate_token_of_genBody_error he]
  exact ⟨⟨e, rfl⟩, rfl⟩

/-- Witness for the amended C10: `items` is a number, not an object. -/
theorem malformed_items_server_error_witness :
    (∃ e, (generate_token dbInit
      ⟨Json.obj [("customer_id", Json.str "c"), ("items", Json.num 5)],
       "t0", "ft0"⟩).1 = .serverError e) ∧
    (generate_token dbInit
      ⟨Json.obj [("customer_id", Json.str "c"), ("items", Json.num 5)],
       "t0", "ft0"⟩).2 = dbInit :=
  malformed_items_server_error dbInit "t0" "ft0"
    [("customer_id", Json.str "c"), ("items", Json.num 5)]
    (by simp) (by simp) (by simp)
    (Or.inl ⟨Json.num 5, by simp [pyGetItem], fun ikvs h => by cases h⟩)

/-- Counterexample to C10 as stated: a request whose only item entry lacks
the `price` field but has quantity 0 is filtered out, so the call returns
a 400 (`"No items in order"`), not a 500. -/
theorem missing_price_entry_not_500 :
    (generate_token dbInit reqMissingPrice).1 =
      GenResp.badRequest "No items in order" ∧
    (∀ e, (generate_token dbInit reqMissingPrice).1 ≠
      GenResp.serverError e) := by
  have h : (generate_token dbInit reqMissingPrice).1 =
      GenResp.badRequest "No items in order" := by
    simp [generate_token, genBody, dbInit, reqMissingPrice, init_db, DB.empty,
      insertOrIgnoreSentinel, pythonTruthy, pyContains, pyGetItem, pyGtZero,
      filterValidItems, processItems, bindValue, maxTok, pyOr999, sentinel]
  refine ⟨h, ?_⟩
  rw [h]
  intro e he
  cases he

end OrderQueue

namespace OrderQueue

/-- Counterexample to C9 as stated: the state reached by placing an order
with price −5 is reachable, and its `orders` table contains a row with a
negative price (the code never validates prices). -/
theorem negative_price_persisted :
    Reachable dbNeg ∧
    (dbNeg.orders.any fun o => decide (o.price < 0)) = true := by
  constructor
  · exact Reachable.place Reachable.init reqNegPrice
  · simp [dbNeg, generate_token, genBody, dbInit, reqNegPrice, init_db,
      DB.empty, insertOrIgnoreSentinel, pythonTruthy, pyContains, pyGetItem,
      pyGtZero, filterValidItems, processItems, bindValue, maxTok, pyOr999,
      sentinel]

/-- C9 as amended: prices are persisted exactly as supplied, with no
validation; consequently, in every state reachable using only requests
whose item `price` fields are non-negative, no `orders` row has a negative
price. -/
theorem nonneg_price_invariant {db : DB} (h : ReachableNN db) :
    ∀ o ∈ db.orders, (0:ℚ) ≤ o.price := by
  induction h with
  | init => simp [init_db, DB.empty]
  | initAgain _ ih => simpa [init_db] using ih
  | clear _ _ =>
    rw [clear_orders_state]
    simp
  | place hprev req hnn ih =>
    rename_i db'
    rcases generate_token_shape db' req with ⟨e, he⟩ | ⟨e, he⟩ |
      ⟨ikvs, valid, rows, entries, total, cust, h1, h2, h3, h4, h5, h6⟩
    · rw [he]; exact ih
    · rw [he]; exact ih
    · rw [h6]
      intro o ho
      rcases List.mem_append.mp ho with ho | ho
      · exact ih o ho
      · obtain ⟨hrows, hmem, -, -⟩ := processItems_ok h5
        rw [hrows] at ho
        obtain ⟨e', he', heq⟩ := List.mem_map.mp ho
        obtain ⟨-, kv, hkv, -, -, hp⟩ := hmem e' he'
        obtain ⟨hkv', -⟩ := filterValidItems_ok h2 kv hkv
        have hall : ∀ kv' ∈ ikvs,
            (match pyGetItem kv'.2 "price" with
             | .ok (.num p) => decide (0 ≤ p)
             | _ => true) = true := by
          have := hnn
          unfold reqPricesNonNeg at this
          rw [h1] at this
          exact List.all_eq_true.mp this
        have hkvp := hall kv hkv'
        rw [hp] at hkvp
        simp only [decide_eq_true_eq] at hkvp
        rw [← heq]
        exact hkvp

/-- Witness for the amended C9: the row persisted by one concrete
non-negative-price order has a non-negative price. -/
theorem nonneg_price_invariant_witness :
    (0:ℚ) ≤ (OrderRow.mk 1000 (Json.str "c1") "tea" 2 10 20
      "2024-01-01T10:00:00").price :=
  nonneg_price_invariant
    (ReachableNN.place ReachableNN.init reqTea
      (by simp [reqPricesNonNeg, reqTea, pyGetItem]))
    (OrderRow.mk 1000 (Json.str "c1") "tea" 2 10 20 "2024-01-01T10:00:00")
    (by
      simp [generate_token, genBody, reqTea, init_db, DB.empty,
        insertOrIgnoreSentinel, pythonTruthy, pyContains, pyGetItem, pyGtZero,
        filterValidItems, processItems, bindValue, maxTok, pyOr999, sentinel]
      norm_num)

end OrderQueue

namespace OrderQueue

/-! ## The sentinel never appears in the queue -/

lemma addRow_token_numbers (acc : List QueueEntry) (row : TokenRow × OrderRow) :
    (addRow acc row).map QueueEntry.token_number
      = acc.map QueueEntry.token_number ∨
    (addRow acc row).map QueueEntry.token_number
      = acc.map QueueEntry.token_number ++ [row.1.token_number] := by
  unfold addRow
  split
  · left
    rw [List.map_map]
    exact List.map_congr_left fun e he => by
      simp only [Function.comp]
      split <;> rfl
  · right
    simp

lemma mem_foldl_addRow_token {rows : List (TokenRow × OrderRow)} :
    ∀ {acc : List QueueEntry} {entry : QueueEntry},
      entry ∈ rows.foldl addRow acc →
      entry.token_number ∈ acc.map QueueEntry.token_number ∨
      ∃ row ∈ rows, entry.token_number = row.1.token_number := by
  induction rows with
  | nil =>
    intro acc entry h
    exact Or.inl (List.mem_map_of_mem _ h)
  | cons row rest ih =>
    intro acc entry h
    rcases ih h with hin | ⟨r, hr, heq⟩
    · rcases addRow_token_numbers acc row with he | he
      · rw [he] at hin
        exact Or.inl hin
      · rw [he] at hin
        rcases List.mem_append.mp hin with hin | hin
        · exact Or.inl hin
        · simp only [List.mem_singleton] at hin
          exact Or.inr ⟨row, List.mem_cons_self _ _, hin⟩
    · exact Or.inr ⟨r, List.mem_cons_of_mem _ hr, heq⟩

lemma mem_joinedRows {db : DB} {row : TokenRow × OrderRow}
    (h : row ∈ joinedRows db) :
    row.2 ∈ db.orders ∧ row.2.token_number = row.1.token_number := by
  unfold joinedRows at h
  rw [List.mem_flatMap] at h
  obtain ⟨t, ht, hrow⟩ := h
  rw [List.mem_map] at hrow
  obtain ⟨o, ho, heq⟩ := hrow
  rw [List.mem_filter] at ho
  subst heq
  exact ⟨ho.1, by simpa using ho.2⟩

/-- C8: in every reachable state the sentinel token (999) has no order
lines, and it never appears in the `GetQueue` output (the listing is an
inner join of tokens to orders, and every order row carries a token number
of at least 1000). -/
theorem sentinel_invisible (db : DB) (h : Reachable db) :
    (∀ o ∈ db.orders, o.token_number ≠ 999) ∧
    (∀ entry ∈ get_queue db, entry.token_number ≠ 999) := by
  have hI := reachable_inv h
  have ho : ∀ o ∈ db.orders, o.token_number ≠ 999 := by
    intro o hoo
    have := hI.orders_ge o hoo
    omega
  refine ⟨ho, ?_⟩
  intro entry hentry
  unfold get_queue at hentry
  rcases mem_foldl_addRow_token hentry with hin | ⟨row, hrow, heq⟩
  · simp at hin
  · obtain ⟨hmem, hteq⟩ := mem_joinedRows hrow
    rw [heq, ← hteq]
    exact ho _ hmem

/-- Witness for C8 after two concrete orders. -/
theorem sentinel_invisible_witness :
    (∀ o ∈ dbTwo.orders, o.token_number ≠ 999) ∧
    (∀ entry ∈ get_queue dbTwo, entry.token_number ≠ 999) :=
  sentinel_invisible dbTwo
    (Reachable.place (Reachable.place Reachable.init reqTea) reqIdli)

end OrderQueue

namespace OrderQueue

/-! ## Grouping correctness of the queue listing -/

lemma addRow_new {acc : List QueueEntry} {t : TokenRow} {o : OrderRow}
    (h : ∀ e ∈ acc, e.token_number ≠ t.token_number) :
    addRow acc (t, o) = acc ++
      [⟨t.token_number, t.customer_id, t.timestamp, t.total_amount,
        [mkQueueItem o]⟩] := by
  have hany : (acc.any fun e => e.token_number == t.token_number) = false :=
    List.any_eq_false.mpr fun e he => by simpa using h e he
  simp [addRow, hany]

lemma addRow_grow {acc : List QueueEntry} {e : QueueEntry} {t : TokenRow}
    {o : OrderRow}
    (h : ∀ e' ∈ acc, e'.token_number ≠ t.token_number)
    (he : e.token_number = t.token_number) :
    addRow (acc ++ [e]) (t, o) =
      acc ++ [{ e with items := e.items ++ [mkQueueItem o] }] := by
  have hany : ((acc ++ [e]).any
      fun e' => e'.token_number == t.token_number) = true := by
    rw [List.any_append]
    simp [he]
  simp only [addRow, hany, if_true]
  rw [List.map_append]
  congr 1
  · rw [show acc.map (fun e' =>
        if e'.token_number == (t, o).1.token_number
        then { e' with items := e'.items ++ [mkQueueItem (t, o).2] }
        else e') = acc.map id from
      List.map_congr_left fun e' he' => by simp [h e' he'], List.map_id]
  · simp [he]

lemma foldl_addRow_run {t : TokenRow} (os : List OrderRow) :
    ∀ {acc : List QueueEntry} {e : QueueEntry},
      (∀ e' ∈ acc, e'.token_number ≠ t.token_number) →
      e.token_number = t.token_number →
      ((os.map fun o => (t, o)).foldl addRow (acc ++ [e]))
        = acc ++ [{ e with items := e.items ++ os.map mkQueueItem }] := by
  induction os with
  | nil =>
    intro acc e h he
    simp
  | cons o os ih =>
    intro acc e h he
    simp only [List.map_cons, List.foldl_cons]
    rw [addRow_grow h he,
      @ih acc { e with items := e.items ++ [mkQueueItem o] } h he]
    simp

lemma foldl_addRow_group {t : TokenRow} (ls : List OrderRow)
    {acc : List QueueEntry}
    (h : ∀ e ∈ acc, e.token_number ≠ t.token_number) :
    ((ls.map fun o => (t, o)).foldl addRow acc)
      = acc ++ (match ls with
          | [] => []
          | ls => [⟨t.token_number, t.customer_id, t.timestamp,
                    t.total_amount, ls.map mkQueueItem⟩]) := by
  cases ls with
  | nil => simp
  | cons o os =>
    simp only [List.map_cons, List.foldl_cons]
    rw [addRow_new h, foldl_addRow_run os h rfl]
    simp

lemma foldl_addRow_groups (orders : List OrderRow) (ts : List TokenRow) :
    ∀ {acc : List QueueEntry},
      (∀ e ∈ acc, ∀ t ∈ ts, e.token_number ≠ t.token_number) →
      (ts.map TokenRow.token_number).Nodup →
      ((ts.flatMap fun t =>
          (orders.filter fun o => o.token_number == t.token_number).map
            fun o => (t, o)).foldl addRow acc)
        = acc ++ ts.filterMap (specEntry orders) := by
  induction ts with
  | nil =>
    intro acc _ _
    simp
  | cons t ts ih =>
    intro acc hacc hnd
    rw [List.flatMap_cons, List.foldl_append]
    rw [foldl_addRow_group _ fun e he => hacc e he t (List.mem_cons_self t ts)]
    have hndt : t.token_number ∉ ts.map TokenRow.token_number := by
      have := hnd
      rw [List.map_cons, List.nodup_cons] at this
      exact this.1
    have hnd' : (ts.map TokenRow.token_number).Nodup := by
      have := hnd
      rw [List.map_cons, List.nodup_cons] at this
      exact this.2
    rw [List.filterMap_cons]
    cases hls : orders.filter fun o => o.token_number == t.token_number with
    | nil =>
      rw [ih ?_ hnd']
      · simp [specEntry, hls]
      · intro e he u hu
        rcases List.mem_append.mp he with he | he
        · exact hacc e he u (List.mem_cons_of_mem t hu)
        · simp at he
    | cons l ls =>
      rw [ih ?_ hnd']
      · simp only [specEntry, hls, List.append_assoc, List.singleton_append]
      · intro e he u hu
        rcases List.mem_append.mp he with he | he
        · exact hacc e he u (List.mem_cons_of_mem t hu)
        · simp only [List.mem_singleton] at he
          subst he
          simp only []
          intro hcontra
          exact hndt (hcontra ▸ List.mem_map_of_mem TokenRow.token_number hu)

lemma sortTokensDesc_perm (ts : List TokenRow) :
    (sortTokensDesc ts).Perm ts :=
  List.perm_insertionSort tsGe ts

lemma get_queue_eq_spec {db : DB}
    (hnd : (db.tokens.map TokenRow.token_number).Nodup) :
    get_queue db = queueSpec db := by
  have hnd' : ((sortTokensDesc db.tokens).map TokenRow.token_number).Nodup :=
    (((sortTokensDesc_perm db.tokens).map TokenRow.token_number).nodup_iff).mpr
      hnd
  unfold get_queue joinedRows queueSpec
  rw [foldl_addRow_groups db.orders (sortTokensDesc db.tokens)
    (fun e he => absurd he (List.not_mem_nil e)) hnd']
  simp

lemma specEntry_timestamp {orders : List OrderRow} {t : TokenRow}
    {entry : QueueEntry} (h : specEntry orders t = some entry) :
    entry.timestamp = t.timestamp := by
  unfold specEntry at h
  split at h
  · cases h
  · injection h with h
    subst h
    rfl

lemma queueSpec_sorted (db : DB) :
    (queueSpec db).Pairwise fun a b => b.timestamp ≤ a.timestamp := by
  have hs : (sortTokensDesc db.tokens).Pairwise tsGe :=
    List.sorted_insertionSort tsGe db.tokens
  exact hs.filterMap (specEntry db.orders) fun a b hr c hc d hd => by
    rw [specEntry_timestamp hc, specEntry_timestamp hd]
    exact hr

end OrderQueue

namespace OrderQueue

lemma specEntry_eq_some {orders : List OrderRow} {t : TokenRow}
    {entry : QueueEntry} (h : specEntry orders t = some entry) :
    entry.token_number = t.token_number ∧
    entry.customer_id = t.customer_id ∧
    entry.timestamp = t.timestamp ∧
    entry.total = t.total_amount ∧
    entry.items = (orders.filter fun o =>
      o.token_number == t.token_number).map mkQueueItem ∧
    (orders.filter fun o => o.token_number == t.token_number) ≠ [] := by
  unfold specEntry at h
  cases hls : orders.filter fun o => o.token_number == t.token_number with
  | nil =>
    simp only [hls] at h
    exact Option.noConfusion h
  | cons a as =>
    simp only [hls] at h
    injection h with h
    subst h
    simp [hls]

lemma specEntry_of_ne_nil {orders : List OrderRow} {t : TokenRow}
    (h : (orders.filter fun o => o.token_number == t.token_number) ≠ []) :
    ∃ entry, specEntry orders t = some entry ∧
      entry.token_number = t.token_number := by
  cases hls : orders.filter fun o => o.token_number == t.token_number with
  | nil => exact absurd hls h
  | cons a as =>
    exact ⟨⟨t.token_number, t.customer_id, t.timestamp, t.total_amount,
      (a :: as).map mkQueueItem⟩, by simp only [specEntry, hls], rfl⟩

/-- C2: in every reachable state the queue listing equals its
specification — one entry per token that has order lines, carrying that
token's line items in row-insertion order and its persisted
`total_amount`, with entries ordered by token timestamp descending
(most recent first). -/
theorem queue_grouping (db : DB) (h : Reachable db) :
    get_queue db = queueSpec db ∧
    (get_queue db).Pairwise (fun a b => b.timestamp ≤ a.timestamp) ∧
    (∀ entry ∈ get_queue db, ∃ t ∈ db.tokens,
      entry.token_number = t.token_number ∧
      entry.total = t.total_amount ∧
      entry.timestamp = t.timestamp ∧
      entry.customer_id = t.customer_id ∧
      entry.items = (db.orders.filter fun o =>
        o.token_number == t.token_number).map mkQueueItem ∧
      entry.items ≠ []) ∧
    (∀ t ∈ db.tokens,
      (db.orders.filter fun o => o.token_number == t.token_number) ≠ [] →
      ∃ entry ∈ get_queue db, entry.token_number = t.token_number) := by
  have hI := reachable_inv h
  have heq := get_queue_eq_spec hI.tokens_nodup
  refine ⟨heq, heq ▸ queueSpec_sorted db, ?_, ?_⟩
  · intro entry hentry
    rw [heq] at hentry
    unfold queueSpec at hentry
    rw [List.mem_filterMap] at hentry
    obtain ⟨t, ht, hsome⟩ := hentry
    have ht' : t ∈ db.tokens := (sortTokensDesc_perm db.tokens).mem_iff.mp ht
    obtain ⟨h1, h2, h3, h4, h5, h6⟩ := specEntry_eq_some hsome
    refine ⟨t, ht', h1, h4, h3, h2, h5, ?_⟩
    rw [h5]
    simpa using h6
  · intro t ht hne
    obtain ⟨entry, hsome, htok⟩ := specEntry_of_ne_nil hne
    refine ⟨entry, ?_, htok⟩
    rw [heq]
    unfold queueSpec
    rw [List.mem_filterMap]
    exact ⟨t, (sortTokensDesc_perm db.tokens).mem_iff.mpr ht, hsome⟩

/-- Witness for C2 after two concrete orders. -/
theorem queue_grouping_witness :
    get_queue dbTwo = queueSpec dbTwo ∧
    (get_queue dbTwo).Pairwise (fun a b => b.timestamp ≤ a.timestamp) ∧
    (∀ entry ∈ get_queue dbTwo, ∃ t ∈ dbTwo.tokens,
      entry.token_number = t.token_number ∧
      entry.total = t.total_amount ∧
      entry.timestamp = t.timestamp ∧
      entry.customer_id = t.customer_id ∧
      entry.items = (dbTwo.orders.filter fun o =>
        o.token_number == t.token_number).map mkQueueItem ∧
      entry.items ≠ []) ∧
    (∀ t ∈ dbTwo.tokens,
      (dbTwo.orders.filter fun o => o.token_number == t.token_number) ≠ [] →
      ∃ entry ∈ get_queue dbTwo, entry.token_number = t.token_number) :=
  queue_grouping dbTwo
    (Reachable.place (Reachable.place Reachable.init reqTea) reqIdli)

end OrderQueue
